import Mathlib

/-!
Verification of the mango HTTP request-dispatch engine.

The development embeds the Go sources shallowly:
* `context.go` (present in the repository): `acceptableMediaTypes`,
  `GetEncoder`, `RespondWith`, and the `Response` builder methods.
* Components whose source files are not available (`mediatype.go`,
  `router.go`, the routing tree and the encoder engine) are modelled
  from the specification and the repository test suite; each such
  definition carries a doc comment starting with `Modelled from the spec:`.

Go byte slices are modelled as `String`, Go `float64` qualities as `Rat`
(the quality values the parser can produce are short decimal fractions,
on which `float64` comparison agrees with exact rational comparison),
and Go's `nil`-able fields as `Option`.
-/

namespace Mango

/-- Embeds Go `strings.Split(s, sep)` for a one-character separator,
working on the character list of the string.  Like `strings.Split`, the
result always has at least one element (split of the empty string is a
single empty field). -/
def splitChar (sep : Char) : List Char → List (List Char)
  | [] => [[]]
  | c :: cs =>
    if c = sep then [] :: splitChar sep cs
    else
      match splitChar sep cs with
      | [] => [[c]]
      | f :: rest => (c :: f) :: rest

/-- Embeds `strings.Replace(hdr, " ", "", -1)`: remove every space. -/
def stripSpaces (s : String) : String :=
  ⟨s.data.filter (fun c => ¬ c = ' ')⟩

/-- The comma-separated fields of an Accept header after space removal,
exactly as computed at the start of `Context.acceptableMediaTypes`
(`context.go` lines 156-158). -/
def fields (accept : String) : List String :=
  (splitChar ',' (stripSpaces accept).data).map (fun l => ⟨l⟩)

/-- A parsed media type: main type, subtype and quality.
Embeds the `mediaType` struct (its `Parameters` map plays no role in the
claims and is omitted).  The Go zero value of the struct is `mtZero`. -/
structure MediaType where
  mainType : String
  subType : String
  q : Rat
deriving DecidableEq, Repr

/-- Embeds the Go method `mediaType.String()`: renders `type/subtype`
(quality and parameters are not rendered, per the ranking example of the
spec where `*/*;q=0.1` ranks as `*/*`). -/
def MediaType.render (m : MediaType) : String :=
  m.mainType ++ "/" ++ m.subType

/-- The Go zero value of the `mediaType` struct: empty type and subtype,
quality 0 (`float64` zero value). -/
def mtZero : MediaType := ⟨"", "", 0⟩

/-- Value of a non-empty string of decimal digits, `none` otherwise. -/
def digitsVal (cs : List Char) : Option Nat :=
  match cs with
  | [] => none
  | _ =>
    cs.foldl
      (fun acc c =>
        acc.bind (fun n =>
          if c.isDigit then some (n * 10 + (c.toNat - 48)) else none))
      (some 0)

/-- Parses a decimal quality value such as `1` or `0.9` to an exact
rational.  Modelled from the spec: the quality is the `;q=` parameter of
an Accept entry, a short decimal number. -/
def parseQ (cs : List Char) : Option Rat :=
  match splitChar '.' cs with
  | [w] => (digitsVal w).map (fun n => mkRat n 1)
  | [w, f] =>
    match digitsVal w, digitsVal f with
    | some wn, some fn => some (mkRat (wn * 10 ^ f.length + fn) (10 ^ f.length))
    | _, _ => none
  | _ => none

/-- Modelled from the spec: the media-type parser `newMediaType`
(file `mediatype.go`, absent from `src/`).  Per the spec (§3, §4.2): an
entry is a `type/subtype` pair with optional `;`-separated parameters;
the quality is the `q` parameter, defaults to 1.0 when unspecified and
lies in [0,1]; a malformed entry (no `type/subtype` shape, empty type or
subtype, or unparsable/out-of-range quality) yields an error; an empty
string is treated as the wildcard `*/*` (spec §4.2: an empty/absent
header is treated as a single wildcard entry, and the doc comment of
`GetEncoder` in `context.go`: default media type is used when no Accept
header is supplied). -/
def newMediaType (s : String) : Option MediaType :=
  let s := if s = "" then "*/*" else s
  match splitChar ';' s.data with
  | [] => none
  | p :: params =>
    match splitChar '/' p with
    | [main, sub] =>
      if main = [] ∨ sub = [] then none
      else
        match params.filterMap (fun pr =>
          match splitChar '=' pr with
          | [k, v] => if k = ['q'] then some v else none
          | _ => none) with
        | [] => some ⟨⟨main⟩, ⟨sub⟩, 1⟩
        | v :: _ =>
          match parseQ v with
          | none => none
          | some q => if q < 0 ∨ 1 < q then none else some ⟨⟨main⟩, ⟨sub⟩, q⟩
    | _ => none

/-- Descending-quality ordering on media types: `mtGE a b` holds when
`a` has at least the quality of `b`. -/
def mtGE (a b : MediaType) : Prop := b.q ≤ a.q

instance : DecidableRel mtGE :=
  fun a b => inferInstanceAs (Decidable (b.q ≤ a.q))

instance : IsTotal MediaType mtGE :=
  ⟨fun a b => le_total b.q a.q⟩

instance : IsTrans MediaType mtGE :=
  ⟨fun _ _ _ h1 h2 => le_trans h2 h1⟩

/-- The media-type slice built by `Context.acceptableMediaTypes`
(`context.go` lines 159-167) before sorting: one entry per
comma-separated field (`make(mediaTypes, len(types))`), holding the
parse of the field, or the zero value when the parse fails (`continue`
skips the assignment, leaving the pre-sized slot untouched). -/
def parsedMediaTypes (accept : String) : List MediaType :=
  (fields accept).map (fun t => (newMediaType t).getD mtZero)

/-- The slice after `sort.Sort(mt)` (`context.go` line 168).  Modelled
from the spec (§4.2, the `mediaTypes` ordering lives in the absent
`mediatype.go`): sorted descending by quality, stable for equal quality,
preserving header order as tie-break; `List.insertionSort` with `mtGE`
is exactly such a stable descending sort. -/
def rankedMediaTypes (accept : String) : List MediaType :=
  List.insertionSort mtGE (parsedMediaTypes accept)

/-- Embeds `Context.acceptableMediaTypes` (`context.go` lines 155-174):
the rendered strings of the ranked media types, in order. -/
def acceptableMediaTypes (accept : String) : List String :=
  (rankedMediaTypes accept).map MediaType.render

/-- A value a handler may respond with (Go `interface\x7b\x7d` models).
Only its interaction with encoders matters here: `text` values are what
the mock encoder of the test suite can encode, `data` values are what it
fails on. -/
inductive Model where
  | text (s : String)
  | data (tag : String)
deriving DecidableEq

/-- An encoder pre-bound to its output sink: encoding a model either
produces the written bytes or fails (Go `Encoder.Encode` returning an
error). -/
abbrev Encoder := Model → Option String

/-- Modelled from the spec: the encoder engine interface
(`EncoderEngine`, absent from `src/`).  `getEncoder mt` returns an
encoder for the media type `mt` or fails ("unsupported media type");
`defaultMediaType` is the configured fallback (spec §4.3). -/
structure EncoderEngine where
  getEncoder : String → Option Encoder
  defaultMediaType : String

/-- Result of `Context.GetEncoder`: either an encoder together with the
selected content type, or failure carrying the last media type
attempted (the `mt` loop variable at exit, `context.go` line 198). -/
inductive EncResult where
  | ok (enc : Encoder) (mt : String)
  | fail (lastMt : String)

/-- The candidate loop of `Context.GetEncoder` (`context.go` lines
188-197): for each ranked media type, translate the literal `*/*` to
the engine default, ask the engine, return on first success; on
exhaustion return the last attempted (translated) media type. -/
def getEncoderLoop (ee : EncoderEngine) : List String → String → EncResult
  | [], last => .fail last
  | mt :: rest, _ =>
    let mt := if mt = "*/*" then ee.defaultMediaType else mt
    match ee.getEncoder mt with
    | some enc => .ok enc mt
    | none => getEncoderLoop ee rest mt

/-- Embeds `Context.GetEncoder` (`context.go` lines 184-199), with the
engine and the Accept header passed explicitly in place of the context
fields.  The initial `last` is the Go zero string. -/
def GetEncoder (ee : EncoderEngine) (accept : String) : EncResult :=
  getEncoderLoop ee (acceptableMediaTypes accept) ""

/-- The response-relevant state of the request `Context` (`context.go`
lines 55-66): status (0 = unset), raw payload, model awaiting
serialization, the readiness flag, and the response headers standing
for `Writer.Header()`. -/
structure Context where
  status : Int
  payload : Option String
  model : Option Model
  responseReady : Bool
  headers : List (String × String)
deriving DecidableEq

/-- A fresh per-request context: Go zero values throughout. -/
def Context.initial : Context := ⟨0, none, none, false, []⟩

/-- Embeds `Header().Set(k, v)`: replace any entry for the key. -/
def headerSet (k v : String) (hs : List (String × String)) : List (String × String) :=
  hs.filter (fun p => ¬ p.1 = k) ++ [(k, v)]

/-- Embeds `Response.WithModel` (`context.go` lines 22-26): sets the
model and marks the response ready. -/
def Response.WithModel (m : Model) (c : Context) : Context :=
  { c with model := some m, responseReady := true }

/-- Embeds `Response.WithStatus` (`context.go` lines 30-34): sets the
status and marks the response ready. -/
def Response.WithStatus (s : Int) (c : Context) : Context :=
  { c with status := s, responseReady := true }

/-- Embeds `Response.WithHeader` (`context.go` lines 38-41): adds a
header (`Header().Add` appends); `responseReady` is not touched. -/
def Response.WithHeader (k v : String) (c : Context) : Context :=
  { c with headers := c.headers ++ [(k, v)] }

/-- Embeds `Response.WithContentType` (`context.go` lines 45-48): sets
the Content-Type header; `responseReady` is not touched. -/
def Response.WithContentType (ct : String) (c : Context) : Context :=
  { c with headers := headerSet "Content-Type" ct c.headers }

/-- The argument of `Context.RespondWith`, a Go `interface\x7b\x7d`
value discriminated by the type switch of `context.go` lines 97-104:
an `int`, a `string`, or anything else (a model). -/
inductive RWValue where
  | int (n : Int)
  | str (s : String)
  | model (m : Model)

/-- Embeds `Context.RespondWith` (`context.go` lines 94-107): the type
switch sets status for an int, payload for a string, model otherwise;
`responseReady` is then set unconditionally. -/
def Context.RespondWith (c : Context) (d : RWValue) : Context :=
  let c :=
    match d with
    | .int t => { c with status := t }
    | .str t => { c with payload := some t }
    | .model m => { c with model := some m }
  { c with responseReady := true }

/-- A request-processing step: it may mutate the context and emit
observable side effects, recorded as a trace of labels. -/
abbrev St := Context × List String

/-- A route handler (`ContextHandlerFunc`). -/
abbrev Handler := St → St

/-- A pre- or post-hook.  Modelled from the spec: hooks take the
context (spec §6); the repository tests only exercise hooks returning
success and the spec leaves abort-on-error open (§9), so hooks are
modelled as always completing. -/
abbrev Hook := St → St

/-- A hook or handler whose only effect is to append its label to the
trace, as the `callStack` recording hooks of the test suite do. -/
def emitHook (l : String) : Hook :=
  fun st => (st.1, st.2 ++ [l])

/-- The observable response: status code, body bytes, and the
Content-Type header (if set). -/
structure HttpResponse where
  code : Int
  body : String
  contentType : Option String
deriving DecidableEq

/-- An incoming request: method, path, and Accept header. -/
structure Request where
  method : String
  path : String
  accept : String

/-- Modelled from the spec: the router (`router.go`, absent from
`src/`).  Routes are an exact-path association pattern → (method →
handler), as the `mockRoutes` of the test suite implements
`HandlerFuncs`; hooks are kept in registration order. -/
structure Router where
  routes : List (String × List (String × Handler))
  preHooks : List Hook
  postHooks : List Hook
  encoderEngine : EncoderEngine

/-- Modelled from the spec: `Router.sendError` (spec §4.5): writes the
status code, sets `Content-Type: text/plain; charset=utf-8`, and writes
the message verbatim as the body. -/
def sendError (msg : String) (code : Int) : HttpResponse :=
  ⟨code, msg, some "text/plain; charset=utf-8"⟩

/-- Status 0 means unset and defaults to 200 (spec §3). -/
def statusOrDefault (s : Int) : Int :=
  if s = 0 then 200 else s

/-- Runs a hook list in order, threading the state. -/
def runHooks (hooks : List Hook) (st : St) : St :=
  hooks.foldl (fun s h => h s) st

/-- The context state after running pre-hooks, the handler, and
post-hooks, each in registration order, on a fresh context
(spec §4.5 steps 3-5). -/
def dispatchSt (r : Router) (h : Handler) : St :=
  runHooks r.postHooks (h (runHooks r.preHooks (Context.initial, [])))

/-- Modelled from the spec: response finalization (spec §4.5 step 6).
A set payload is written verbatim with the configured status; otherwise
a set model is encoded via the first ranked media type that yields an
encoder, answering 406 with the documented message when none does and
500 with an opaque message when encoding fails; otherwise the default
200/empty response is written. -/
def finalize (ee : EncoderEngine) (accept : String) (c : Context) : HttpResponse :=
  match c.payload with
  | some p => ⟨statusOrDefault c.status, p, c.headers.lookup "Content-Type"⟩
  | none =>
    match c.model with
    | some m =>
      match GetEncoder ee accept with
      | .fail lastMt =>
        sendError ("Unable to encode to requested acceptable formats: \"" ++ lastMt ++ "\"") 406
      | .ok enc mt =>
        match enc m with
        | none => sendError "Sorry, something went wrong." 500
        | some bytes => ⟨statusOrDefault c.status, bytes, some mt⟩
    | none => ⟨statusOrDefault c.status, "", c.headers.lookup "Content-Type"⟩

/-- Modelled from the spec: `Router.ServeHTTP` (spec §4.5 state
machine, statuses confirmed by the test suite).  Unresolved path → 404;
resolved path without the method → 405; otherwise pre-hooks, handler,
post-hooks, then finalization.  Returns the response together with the
trace of emitted side effects. -/
def Router.ServeHTTP (r : Router) (req : Request) : HttpResponse × List String :=
  match r.routes.lookup req.path with
  | none => (sendError "404 page not found" 404, [])
  | some hm =>
    match hm.lookup req.method with
    | none => (sendError "405 method not allowed" 405, [])
    | some h =>
      let st := dispatchSt r h
      (finalize r.encoderEngine req.accept st.1, st.2)

/-! Concrete fixtures mirroring the repository test suite, used to
instantiate the theorems below at closed inputs. -/

/-- Modelled from the test suite: the encoder produced by
`mockEncoderEngine` for `test/test`.  Per `TestGetEncodedResponse` it
encodes a string model verbatim, and per
`TestResponseCodeWhenErrorEncodingPayload` it fails on any other
model. -/
def mockTestEncoder : Encoder :=
  fun m =>
    match m with
    | .text s => some s
    | .data _ => none

/-- Modelled from the test suite: the `mockEncoderEngine` used by
`router_test.go` (its definition is not among the shown sources).  It
supports exactly the media type `test/test`
(`TestResponseCodeWhenRequestAcceptHeaderIsUnsupported` shows that
`test/mango` is unsupported). -/
def mockEncoderEngine : EncoderEngine :=
  ⟨fun mt => if mt = "test/test" then some mockTestEncoder else none, "test/test"⟩

/-- A handler that leaves the state unchanged (like `testFunc` of the
test suite, whose body is irrelevant to the routing tests). -/
def idHandler : Handler := fun st => st

/-- A handler responding with a model, as the handlers of the encoding
tests do via `Respond().WithModel`. -/
def modelHandler (m : Model) : Handler :=
  fun st => (Response.WithModel m st.1, st.2)

/-- A handler calling `RespondWith` with a string, as in
`TestGetSimpleTextResponse`. -/
def textHandler (s : String) : Handler :=
  fun st => (Context.RespondWith st.1 (.str s), st.2)

/-- A router with no registered routes (`TestWhenNoMatchingRouteServeHTTPReturns404NotFound`). -/
def rtr404 : Router := ⟨[], [], [], mockEncoderEngine⟩

/-- A router whose only handler for `/test` is registered for DELETE
(`TestWhenNoMatchingHandlerServeHTTPReturns405MethodNotAllowed`). -/
def rtr405 : Router := ⟨[("/test", [("DELETE", idHandler)])], [], [], mockEncoderEngine⟩

/-- A router serving a model on GET `/test` over the mock engine
(the encoding tests of the test suite). -/
def rtrModelText : Router :=
  ⟨[("/test", [("GET", modelHandler (.text "mango biscuits 34"))])], [], [], mockEncoderEngine⟩

/-- Like `rtrModelText` but with a model the mock encoder fails on
(`TestResponseMessageWhenErrorEncodingPayload`). -/
def rtrModelData : Router :=
  ⟨[("/test", [("GET", modelHandler (.data "mango biscuits 34"))])], [], [], mockEncoderEngine⟩

/-- A router whose handler responds with plain text
(`TestGetSimpleTextResponse`). -/
def rtrText : Router :=
  ⟨[("/test", [("GET", textHandler "two lost souls swimming in a fish bowl")])],
    [], [], mockEncoderEngine⟩

/-- A router with three pre-hooks and three post-hooks that record
their labels (`TestPreHooksCalledInOrder`, `TestPostHooksCalledInOrder`). -/
def rtrHooks : Router :=
  ⟨[("/test", [("GET", emitHook "handler")])],
    ["prehook1", "prehook2", "prehook3"].map emitHook,
    ["posthook1", "posthook2", "posthook3"].map emitHook,
    mockEncoderEngine⟩

/-! Helper lemmas. -/

/-- Splitting a character list never yields an empty list of fields. -/
theorem splitChar_ne_nil (sep : Char) : ∀ cs : List Char, splitChar sep cs ≠ []
  | [] => by simp [splitChar]
  | c :: cs => by
    simp only [splitChar]
    split
    · simp
    · split
      · simp
      · simp

/-- An Accept header always has at least one comma-separated field. -/
theorem fields_ne_nil (accept : String) : fields accept ≠ [] := by
  simp only [fields, ne_eq, List.map_eq_nil_iff]
  exact splitChar_ne_nil _ _

/-- The ranked list has one entry per comma-separated header field. -/
theorem acceptableMediaTypes_len (accept : String) :
    (acceptableMediaTypes accept).length = (fields accept).length := by
  simp [acceptableMediaTypes, rankedMediaTypes, parsedMediaTypes,
    (List.perm_insertionSort mtGE _).length_eq]

/-- Inserting into a list keeps the subsequence of any fixed quality:
the skipped prefix consists of strictly greater qualities. -/
theorem filter_orderedInsert_q (q : Rat) (a : MediaType) :
    ∀ l : List MediaType,
      (List.orderedInsert mtGE a l).filter (fun m => decide (m.q = q)) =
        if a.q = q then a :: l.filter (fun m => decide (m.q = q))
        else l.filter (fun m => decide (m.q = q))
  | [] => by
    by_cases h : a.q = q <;> simp [List.orderedInsert, List.filter, h]
  | b :: l => by
    have ih := filter_orderedInsert_q q a l
    by_cases hab : mtGE a b
    · rw [List.orderedInsert, if_pos hab]
      by_cases haq : a.q = q <;> simp [List.filter_cons, haq]
    · rw [List.orderedInsert, if_neg hab]
      have hlt : a.q < b.q := not_le.mp hab
      by_cases hbq : b.q = q
      · have haq : ¬ a.q = q := by
          intro h
          rw [h, hbq] at hlt
          exact lt_irrefl q hlt
        simp [List.filter_cons, hbq, haq, ih]
      · by_cases haq : a.q = q <;> simp [List.filter_cons, hbq, haq, ih]

/-- The stable sort preserves, for each quality value, the relative
order of the entries carrying that quality. -/
theorem filter_insertionSort_q (q : Rat) :
    ∀ l : List MediaType,
      (List.insertionSort mtGE l).filter (fun m => decide (m.q = q)) =
        l.filter (fun m => decide (m.q = q))
  | [] => rfl
  | b :: l => by
    have ih := filter_insertionSort_q q l
    rw [List.insertionSort, filter_orderedInsert_q, ih]
    by_cases hbq : b.q = q <;> simp [List.filter_cons, hbq]

/-- Running a list of label-emitting hooks appends exactly those labels
to the trace, in list order, and leaves the context unchanged. -/
theorem runHooks_emit : ∀ (ls : List String) (st : St),
    runHooks (ls.map emitHook) st = (st.1, st.2 ++ ls)
  | [], st => by simp [runHooks]
  | l :: ls, st => by
    have ih := runHooks_emit ls (st.1, st.2 ++ [l])
    simp only [List.map_cons, runHooks, List.foldl_cons] at ih ⊢
    rw [show emitHook l st = (st.1, st.2 ++ [l]) from rfl, ih]
    simp

/-- When the candidate loop succeeds, the returned encoder is the one
the engine produced for the returned media type. -/
theorem getEncoderLoop_ok (ee : EncoderEngine) :
    ∀ (mts : List String) (last : String) (enc : Encoder) (mt : String),
      getEncoderLoop ee mts last = .ok enc mt → ee.getEncoder mt = some enc
  | [], _, enc, mt => by simp [getEncoderLoop]
  | m :: rest, last, enc, mt => by
    simp only [getEncoderLoop]
    cases h : ee.getEncoder (if m = "*/*" then ee.defaultMediaType else m) with
    | some e =>
      intro he
      cases he
      exact h
    | none =>
      exact getEncoderLoop_ok ee rest _ enc mt

/-! Claim theorems. -/

/-- Claim C1: a request whose path matches no registered route yields
status 404 regardless of the method, and a request whose path matches a
route for which the method has no handler yields status 405. -/
theorem serveHTTP_unmatched_status (r : Router) (req : Request) :
    (r.routes.lookup req.path = none → (r.ServeHTTP req).1.code = 404) ∧
    (∀ hm, r.routes.lookup req.path = some hm → hm.lookup req.method = none →
      (r.ServeHTTP req).1.code = 405) := by
  constructor
  · intro h
    simp [Router.ServeHTTP, h, sendError]
  · intro hm h1 h2
    simp [Router.ServeHTTP, h1, h2, sendError]

/-- Witness for C1: a GET against an empty route table answers 404; a
GET against a path registered only for DELETE answers 405. -/
theorem serveHTTP_unmatched_status_witness :
    (Router.ServeHTTP rtr404 ⟨"GET", "/test", ""⟩).1.code = 404 ∧
    (Router.ServeHTTP rtr405 ⟨"GET", "/test", ""⟩).1.code = 405 :=
  ⟨(serveHTTP_unmatched_status rtr404 ⟨"GET", "/test", ""⟩).1 rfl,
   (serveHTTP_unmatched_status rtr405 ⟨"GET", "/test", ""⟩).2 _ rfl rfl⟩

/-- Claim C2: the ranked list is the rendering of a media-type list
sorted descending by quality, the sort is stable (each quality class
keeps its header order), and on the two concrete headers of the spec
the ranking is `[text/html, application/json, */*]` and `[*/*]`. -/
theorem acceptableMediaTypes_ranking (accept : String) :
    acceptableMediaTypes accept = (rankedMediaTypes accept).map MediaType.render ∧
    List.Sorted mtGE (rankedMediaTypes accept) ∧
    (∀ q : Rat,
      (rankedMediaTypes accept).filter (fun m => decide (m.q = q)) =
        (parsedMediaTypes accept).filter (fun m => decide (m.q = q))) ∧
    acceptableMediaTypes "text/html,application/json;q=0.9,*/*;q=0.1" =
      ["text/html", "application/json", "*/*"] ∧
    acceptableMediaTypes "" = ["*/*"] :=
  ⟨rfl, List.sorted_insertionSort mtGE _, fun q => filter_insertionSort_q q _,
    by decide, by decide⟩

/-- Counterexample to claim C3 as stated: the unparsable field
`garbage` is not removed from the ranked list; the Go code pre-sizes
the media-type slice and `continue` leaves the zero value in place, so
the header `text/html,garbage` ranks as two entries — `text/html` and
the rendering `/` of the zero value — not as `[text/html]` alone. -/
theorem malformed_entry_not_dropped :
    newMediaType "garbage" = none ∧
    acceptableMediaTypes "text/html,garbage" = ["text/html", "/"] ∧
    acceptableMediaTypes "text/html,garbage" ≠ ["text/html"] := by
  refine ⟨by decide, by decide, by decide⟩

/-- Claim C3 as amended: an entry that fails to parse never aborts
negotiation — the zero-valued media type stands in its place in the
ranked list (at quality 0), and every successfully parsed entry still
appears in the ranked list. -/
theorem malformed_entry_placeholder (accept t : String)
    (hmem : t ∈ fields accept) (hfail : newMediaType t = none) :
    mtZero ∈ rankedMediaTypes accept ∧
    (∀ u mu, u ∈ fields accept → newMediaType u = some mu →
      mu ∈ rankedMediaTypes accept) := by
  constructor
  · rw [rankedMediaTypes, List.mem_insertionSort, parsedMediaTypes]
    refine List.mem_map.mpr ⟨t, hmem, ?_⟩
    simp [hfail]
  · intro u mu hu hpu
    rw [rankedMediaTypes, List.mem_insertionSort, parsedMediaTypes]
    refine List.mem_map.mpr ⟨u, hu, ?_⟩
    simp [hpu]

/-- Witness for the amended C3, at the header `text/html,garbage`. -/
theorem malformed_entry_placeholder_witness :
    mtZero ∈ rankedMediaTypes "text/html,garbage" ∧
    (∀ u mu, u ∈ fields "text/html,garbage" → newMediaType u = some mu →
      mu ∈ rankedMediaTypes "text/html,garbage") :=
  malformed_entry_placeholder "text/html,garbage" "garbage" (by decide) (by decide)

/-- Claim C4: when the candidate loop of `GetEncoder` reaches the
literal `*/*`, it asks the engine for the default media type — on
success the selection is the translated type, on failure the loop
continues with the translated type as last attempt — and any
successful `GetEncoder` returns the media type the engine actually
produced the encoder for. -/
theorem getEncoder_wildcard_translated (ee : EncoderEngine) (rest : List String) (last : String) :
    (∀ enc, ee.getEncoder ee.defaultMediaType = some enc →
      getEncoderLoop ee ("*/*" :: rest) last = .ok enc ee.defaultMediaType) ∧
    (ee.getEncoder ee.defaultMediaType = none →
      getEncoderLoop ee ("*/*" :: rest) last = getEncoderLoop ee rest ee.defaultMediaType) ∧
    (∀ (accept : String) (enc : Encoder) (mt : String),
      GetEncoder ee accept = .ok enc mt → ee.getEncoder mt = some enc) := by
  refine ⟨?_, ?_, ?_⟩
  · intro enc h
    simp [getEncoderLoop, h]
  · intro h
    simp [getEncoderLoop, h]
  · intro accept enc mt h
    exact getEncoderLoop_ok ee _ _ enc mt h

/-- Witness for C4: on the mock engine a ranked list `[*/*]` selects
the engine default `test/test`, not the literal wildcard. -/
theorem getEncoder_wildcard_translated_witness :
    getEncoderLoop mockEncoderEngine ["*/*"] "" = .ok mockTestEncoder "test/test" :=
  (getEncoder_wildcard_translated mockEncoderEngine [] "").1 mockTestEncoder rfl

/-- Claim C5: when no ranked candidate yields an encoder, the response
is 406 with body `Unable to encode to requested acceptable formats:
"<m>"`, where `<m>` is the last media type attempted after wildcard
translation. -/
theorem serveHTTP_406_message (r : Router) (req : Request)
    (hm : List (String × Handler)) (h : Handler) (m : Model) (lastMt : String)
    (h1 : r.routes.lookup req.path = some hm)
    (h2 : hm.lookup req.method = some h)
    (h3 : (dispatchSt r h).1.payload = none)
    (h4 : (dispatchSt r h).1.model = some m)
    (h5 : GetEncoder r.encoderEngine req.accept = .fail lastMt) :
    (r.ServeHTTP req).1 =
      ⟨406, "Unable to encode to requested acceptable formats: \"" ++ lastMt ++ "\"",
        some "text/plain; charset=utf-8"⟩ := by
  simp [Router.ServeHTTP, h1, h2, finalize, h3, h4, h5, sendError]

/-- Witness for C5: the unsupported Accept header `test/mango` against
the mock engine answers 406 with the documented message, exactly as
`TestResponseMessageWhenRequestAcceptHeaderIsUnsupported` records. -/
theorem serveHTTP_406_message_witness :
    (Router.ServeHTTP rtrModelText ⟨"GET", "/test", "test/mango"⟩).1 =
      ⟨406, "Unable to encode to requested acceptable formats: \"test/mango\"",
        some "text/plain; charset=utf-8"⟩ :=
  serveHTTP_406_message rtrModelText ⟨"GET", "/test", "test/mango"⟩ _
    (modelHandler (.text "mango biscuits 34")) (.text "mango biscuits 34") "test/mango"
    rfl rfl rfl rfl rfl

/-- Claim C6: when an encoder is obtained but encoding the model fails,
the response is 500 with body `Sorry, something went wrong.` — the
underlying encoder error never reaches the client. -/
theorem serveHTTP_500_message (r : Router) (req : Request)
    (hm : List (String × Handler)) (h : Handler) (m : Model) (enc : Encoder) (mt : String)
    (h1 : r.routes.lookup req.path = some hm)
    (h2 : hm.lookup req.method = some h)
    (h3 : (dispatchSt r h).1.payload = none)
    (h4 : (dispatchSt r h).1.model = some m)
    (h5 : GetEncoder r.encoderEngine req.accept = .ok enc mt)
    (h6 : enc m = none) :
    (r.ServeHTTP req).1 =
      ⟨500, "Sorry, something went wrong.", some "text/plain; charset=utf-8"⟩ := by
  simp [Router.ServeHTTP, h1, h2, finalize, h3, h4, h5, h6, sendError]

/-- Witness for C6: a model the mock encoder cannot encode answers 500
with the opaque message, as `TestResponseMessageWhenErrorEncodingPayload`
records. -/
theorem serveHTTP_500_message_witness :
    (Router.ServeHTTP rtrModelData ⟨"GET", "/test", "test/test"⟩).1 =
      ⟨500, "Sorry, something went wrong.", some "text/plain; charset=utf-8"⟩ :=
  serveHTTP_500_message rtrModelData ⟨"GET", "/test", "test/test"⟩ _
    (modelHandler (.data "mango biscuits 34")) (.data "mango biscuits 34")
    mockTestEncoder "test/test" rfl rfl rfl rfl rfl rfl

/-- Claim C7: `RespondWith` sets the status for an int, the raw payload
for a string, the model for anything else, and always marks the
response ready; a handler responding with a string yields a 200
response whose body is that string verbatim. -/
theorem respondWith_dispatch (c : Context) :
    (∀ n : Int, Context.RespondWith c (.int n) = { c with status := n, responseReady := true }) ∧
    (∀ s : String, Context.RespondWith c (.str s) = { c with payload := some s, responseReady := true }) ∧
    (∀ m : Model, Context.RespondWith c (.model m) = { c with model := some m, responseReady := true }) ∧
    (∀ d : RWValue, (Context.RespondWith c d).responseReady = true) ∧
    (∀ (r : Router) (req : Request) (hm : List (String × Handler)) (s : String),
      r.routes.lookup req.path = some hm →
      hm.lookup req.method = some (textHandler s) →
      r.preHooks = [] → r.postHooks = [] →
      (r.ServeHTTP req).1 = ⟨200, s, none⟩) := by
  refine ⟨fun n => rfl, fun s => rfl, fun m => rfl, fun d => ?_, ?_⟩
  · cases d <;> rfl
  · intro r req hm s h1 h2 hpre hpost
    simp [Router.ServeHTTP, h1, h2, dispatchSt, hpre, hpost, runHooks, textHandler,
      Context.RespondWith, Context.initial, finalize, statusOrDefault, List.lookup]

/-- Witness for C7: a handler calling `RespondWith` with the test
string produces a 200 response carrying that string verbatim. -/
theorem respondWith_dispatch_witness :
    (Router.ServeHTTP rtrText ⟨"GET", "/test", ""⟩).1 =
      ⟨200, "two lost souls swimming in a fish bowl", none⟩ :=
  (respondWith_dispatch Context.initial).2.2.2.2 rtrText ⟨"GET", "/test", ""⟩ _
    "two lost souls swimming in a fish bowl" rfl rfl rfl rfl

/-- Claim C8: `WithModel` and `WithStatus` set `responseReady`; the
header-only builders `WithHeader` and `WithContentType` modify the
response headers exactly and leave `responseReady` unchanged. -/
theorem response_builder_readiness (c : Context) :
    (∀ m, (Response.WithModel m c).responseReady = true) ∧
    (∀ s, (Response.WithStatus s c).responseReady = true) ∧
    (∀ k v, Response.WithHeader k v c = { c with headers := c.headers ++ [(k, v)] }) ∧
    (∀ ct, Response.WithContentType ct c =
      { c with headers := headerSet "Content-Type" ct c.headers }) ∧
    (∀ k v, (Response.WithHeader k v c).responseReady = c.responseReady) ∧
    (∀ ct, (Response.WithContentType ct c).responseReady = c.responseReady) :=
  ⟨fun _ => rfl, fun _ => rfl, fun _ _ => rfl, fun _ => rfl, fun _ _ => rfl, fun _ => rfl⟩

/-- Claim C9: for a dispatched request with pre-hooks emitting labels
`hs`, a handler emitting `H`, and post-hooks emitting `gs`, the
observable side-effect sequence is exactly `hs ++ [H] ++ gs`: pre-hooks
strictly before the handler and post-hooks strictly after, each in
registration order. -/
theorem hooks_run_in_order (r : Router) (req : Request) (hm : List (String × Handler))
    (hs gs : List String) (H : String)
    (hpre : r.preHooks = hs.map emitHook) (hpost : r.postHooks = gs.map emitHook)
    (h1 : r.routes.lookup req.path = some hm)
    (h2 : hm.lookup req.method = some (emitHook H)) :
    (r.ServeHTTP req).2 = hs ++ [H] ++ gs := by
  simp [Router.ServeHTTP, h1, h2, dispatchSt, hpre, hpost, runHooks_emit, emitHook]

/-- Witness for C9: three pre-hooks and three post-hooks around a
handler produce the trace of the `TestPreHooksCalledInOrder` and
`TestPostHooksCalledInOrder` tests. -/
theorem hooks_run_in_order_witness :
    (Router.ServeHTTP rtrHooks ⟨"GET", "/test", ""⟩).2 =
      ["prehook1", "prehook2", "prehook3", "handler", "posthook1", "posthook2", "posthook3"] :=
  hooks_run_in_order rtrHooks ⟨"GET", "/test", ""⟩ _
    ["prehook1", "prehook2", "prehook3"] ["posthook1", "posthook2", "posthook3"] "handler"
    rfl rfl rfl rfl

/-- Claim C10: the ranked list always has exactly one entry per
comma-separated header field — in particular it is never empty — and a
field whose parse fails leaves the zero-valued media type at its
position of the pre-sized slice rather than shrinking the list. -/
theorem acceptableMediaTypes_presized (accept : String) :
    (acceptableMediaTypes accept).length = (fields accept).length ∧
    acceptableMediaTypes accept ≠ [] ∧
    (∀ (i : Nat) (h1 : i < (fields accept).length) (h2 : i < (parsedMediaTypes accept).length),
      newMediaType ((fields accept).get ⟨i, h1⟩) = none →
      (parsedMediaTypes accept).get ⟨i, h2⟩ = mtZero) := by
  refine ⟨acceptableMediaTypes_len accept, ?_, ?_⟩
  · intro hnil
    have h0 : (fields accept).length = 0 := by
      rw [← acceptableMediaTypes_len accept, hnil]
      rfl
    exact fields_ne_nil accept (List.length_eq_zero.mp h0)
  · intro i hi1 hi2 hfail
    rw [List.get_eq_getElem] at hfail
    simp [parsedMediaTypes, List.get_eq_getElem, List.getElem_map, hfail]

/-- Witness for C10: the header `text/html,garbage` keeps both of its
fields in the ranked list, the failing one as the zero value. -/
theorem acceptableMediaTypes_presized_witness :
    (acceptableMediaTypes "text/html,garbage").length = (fields "text/html,garbage").length ∧
    (parsedMediaTypes "text/html,garbage").get ⟨1, by decide⟩ = mtZero :=
  ⟨(acceptableMediaTypes_presized "text/html,garbage").1,
   (acceptableMediaTypes_presized "text/html,garbage").2.2 1 (by decide) (by decide) (by decide)⟩

end Mango
